import Mathlib

/-!
Verification development for `scripts/diagnose_rag_pipelines.py`, a sequential
diagnostic utility for a RAG application.  The script is shallowly embedded:
every external call that can fail (library imports, service client
construction, pipeline registry access, pipeline construction, the live
search call) is an outcome recorded in a `World` record, and each check
function of the script becomes a pure Lean function from the world to a list
of tagged output lines (the `print_success` / `print_warning` / `print_error`
/ `print_info` / `print_header` helpers of the script) plus its return value.
Python exceptions are modelled with `Except`: a check that does not catch a
failing call propagates the error value.  Strings are lists of characters so
that Python slicing (`value[:8]`, `value[-4:]`) is `List.take` / `List.drop`.
-/

/-- Python strings, as lists of characters (Python `len` and slicing count
code points, as `List.length` / `List.take` / `List.drop` do here). -/
abbrev Str := List Char

/-- Coerce a Lean string literal to the character-list model. -/
def str (s : String) : Str := s.data

/-- Decimal rendering of a natural number, as Python string formatting does. -/
def natToStr (n : Nat) : Str := (toString n).data

/-- `strStartsWith s p` is true when `p` is an initial segment of `s`
(Python `s.startswith(p)`). -/
def strStartsWith : Str → Str → Bool
  | _, [] => true
  | [], _ :: _ => false
  | c :: s, d :: t => c == d && strStartsWith s t

/-- `strHasSub s sub` is true when `sub` occurs contiguously inside `s`
(Python `sub in s`). -/
def strHasSub : Str → Str → Bool
  | [], sub => sub.isEmpty
  | c :: s, sub => strStartsWith (c :: s) sub || strHasSub s sub

/-- Python `sep.join(parts)`. -/
def joinSep (sep : Str) : List Str → Str
  | [] => []
  | [s] => s
  | s :: rest => s ++ sep ++ joinSep sep rest

/-- One line printed by the script, tagged by which printing helper produced
it: `print_header`, `print_success`, `print_warning`, `print_error`,
`print_info`, or a bare `print`. -/
inductive Line where
  | header : Str → Line
  | success : Str → Line
  | warning : Str → Line
  | error : Str → Line
  | info : Str → Line
  | plain : Str → Line
deriving DecidableEq

/-- The process environment: a variable name is mapped to `some value` when
the variable is set (possibly to the empty string) and to `none` otherwise. -/
abbrev EnvMap := Str → Option Str

/-- Python `os.getenv(var, default)`: the environment value when the variable
is set (even if set to the empty string), otherwise the default. -/
def getenv (env : EnvMap) (var : Str) (dflt : Option Str) : Option Str :=
  match env var with
  | some v => some v
  | none => dflt

/-- Python truthiness of an optional string: `None` and `""` are falsy. -/
def truthy : Option Str → Bool
  | some v => !v.isEmpty
  | none => false

/-- The masking expression of `check_environment`:
`value[:8] + "..." + value[-4:] if len(value) > 12 else "***"`. -/
def maskValue (v : Str) : Str :=
  if 12 < v.length then v.take 8 ++ str "..." ++ v.drop (v.length - 4)
  else str "***"

/-- The fixed variable list of `check_environment`, each with its optional
default. -/
def env_vars : List (Str × Option Str) :=
  [(str "RAG_PROVIDER", some (str "raganything")),
   (str "OPENAI_API_KEY", none),
   (str "OPENAI_BASE_URL", none),
   (str "LLM_MODEL", none),
   (str "EMBEDDING_MODEL", none)]

/-- The line printed by the loop body of `check_environment` for one
variable: a success line with the value (masked for key-like variables) when
the retrieved value is truthy, a warning line otherwise. -/
def envVarLine (env : EnvMap) (var : Str) (dflt : Option Str) : Line :=
  let value := getenv env var dflt
  if truthy value then
    let v := value.getD []
    if strHasSub var (str "KEY") then
      Line.success (var ++ str ": " ++ maskValue v)
    else
      Line.success (var ++ str ": " ++ v)
  else
    Line.warning (var ++ str ": 未设置")

/-- `check_environment`: a header, then one line per variable of
`env_vars`. -/
def check_environment (env : EnvMap) : List Line :=
  Line.header (str "环境变量检查") :: env_vars.map (fun p => envVarLine env p.1 p.2)

-- Sanity examples (concrete evaluation of the embedding).
example :
    envVarLine (fun v => if v = str "OPENAI_API_KEY" then some (str "sk-abcdefghij1234") else none)
      (str "OPENAI_API_KEY") none =
    Line.success (str "OPENAI_API_KEY: sk-abcde...1234") := by decide

example :
    envVarLine (fun v => if v = str "OPENAI_API_KEY" then some (str "short") else none)
      (str "OPENAI_API_KEY") none =
    Line.success (str "OPENAI_API_KEY: ***") := by decide

example :
    envVarLine (fun _ => none) (str "LLM_MODEL") none =
    Line.warning (str "LLM_MODEL: 未设置") := by decide

/-- C2: for a key-like variable set to a non-empty value, the rendered line
masks the value: first 8 characters, `"..."`, last 4 characters when the
value is longer than 12 characters, the fixed placeholder `"***"`
otherwise. -/
theorem c2_key_masking (env : EnvMap) (var : Str) (dflt : Option Str) (v : Str)
    (hset : env var = some v) (hne : v ≠ [])
    (hkey : strHasSub var (str "KEY") = true) :
    (12 < v.length →
      envVarLine env var dflt =
        Line.success (var ++ str ": " ++ (v.take 8 ++ str "..." ++ v.drop (v.length - 4))) ∧
      (v.take 8).length = 8 ∧ (v.drop (v.length - 4)).length = 4) ∧
    (v.length ≤ 12 →
      envVarLine env var dflt = Line.success (var ++ str ": " ++ str "***")) := by
  have hget : getenv env var dflt = some v := by simp [getenv, hset]
  have htr : truthy (some v) = true := by
    simp [truthy, List.isEmpty_iff, hne]
  constructor
  · intro hlong
    refine ⟨?_, ?_, ?_⟩
    · simp [envVarLine, htr, hget, hkey, maskValue, hlong]
    · simp [List.length_take]; omega
    · simp [List.length_drop]; omega
  · intro hshort
    have : ¬ 12 < v.length := by omega
    simp [envVarLine, htr, hget, hkey, maskValue, this]

/-- C2 witness: the theorem applied to a concrete 15-character key value and
to a concrete short key value. -/
theorem c2_key_masking_witness :
    ((fun v => if v = str "OPENAI_API_KEY" then some (str "sk-abcdefghij12") else none)
        (str "OPENAI_API_KEY") = some (str "sk-abcdefghij12")) ∧
    (12 < (str "sk-abcdefghij12").length →
      envVarLine
        (fun v => if v = str "OPENAI_API_KEY" then some (str "sk-abcdefghij12") else none)
        (str "OPENAI_API_KEY") none =
        Line.success (str "OPENAI_API_KEY" ++ str ": " ++
          ((str "sk-abcdefghij12").take 8 ++ str "..." ++
            (str "sk-abcdefghij12").drop ((str "sk-abcdefghij12").length - 4))) ∧
      ((str "sk-abcdefghij12").take 8).length = 8 ∧
      ((str "sk-abcdefghij12").drop ((str "sk-abcdefghij12").length - 4)).length = 4) := by
  refine ⟨by decide, ?_⟩
  exact (c2_key_masking
    (fun v => if v = str "OPENAI_API_KEY" then some (str "sk-abcdefghij12") else none)
    (str "OPENAI_API_KEY") none (str "sk-abcdefghij12") (by decide) (by decide) (by decide)).1

/-- C3: for each of the five variables of `env_vars`: when the variable is
unset and has no default the line is the not-set warning; when it is set to
a non-empty value the line is a success line showing the value, or its
masked form for a key-named variable. -/
theorem c3_five_vars (env : EnvMap) (var : Str) (dflt : Option Str)
    (hmem : (var, dflt) ∈ env_vars) :
    ((env var = none ∧ dflt = none) →
      envVarLine env var dflt = Line.warning (var ++ str ": 未设置")) ∧
    (∀ v, env var = some v → v ≠ [] →
      ∃ shown, envVarLine env var dflt = Line.success (var ++ str ": " ++ shown) ∧
        (shown = v ∨ shown = maskValue v)) := by
  constructor
  · rintro ⟨hunset, hnod⟩
    simp [envVarLine, getenv, hunset, hnod, truthy]
  · intro v hset hne
    have hget : getenv env var dflt = some v := by simp [getenv, hset]
    have htr : truthy (some v) = true := by
      simp [truthy, List.isEmpty_iff, hne]
    by_cases hkey : strHasSub var (str "KEY") = true
    · exact ⟨maskValue v, by simp [envVarLine, hget, htr, hkey], Or.inr rfl⟩
    · refine ⟨v, ?_, Or.inl rfl⟩
      simp only [Bool.not_eq_true] at hkey
      simp [envVarLine, hget, htr, hkey]

/-- C3 witness: the theorem applied to `OPENAI_BASE_URL` in an environment
that leaves it unset, discharging both sides at a concrete point. -/
theorem c3_five_vars_witness :
    ((str "OPENAI_BASE_URL", (none : Option Str)) ∈ env_vars) ∧
    (((fun (_ : Str) => (none : Option Str)) (str "OPENAI_BASE_URL") = none ∧
        (none : Option Str) = none) →
      envVarLine (fun _ => none) (str "OPENAI_BASE_URL") none =
        Line.warning (str "OPENAI_BASE_URL" ++ str ": 未设置")) := by
  refine ⟨by decide, ?_⟩
  exact (c3_five_vars (fun _ => none) (str "OPENAI_BASE_URL") none (by decide)).1

/-- C9: a variable of `env_vars` that is set in the environment with the
empty string as its value is reported with the same not-set warning as an
absent variable, because `check_environment` tests the truthiness of the
retrieved value, and `os.getenv` returns the set (empty) value rather than
the default. -/
theorem c9_empty_value_is_not_set (env : EnvMap) (var : Str) (dflt : Option Str)
    (hmem : (var, dflt) ∈ env_vars) (hset : env var = some []) :
    envVarLine env var dflt = Line.warning (var ++ str ": 未设置") := by
  simp [envVarLine, getenv, hset, truthy]

/-- C9 witness: `RAG_PROVIDER` set to the empty string is reported not set
even though it has a default. -/
theorem c9_empty_value_is_not_set_witness :
    envVarLine (fun v => if v = str "RAG_PROVIDER" then some [] else none)
      (str "RAG_PROVIDER") (some (str "raganything")) =
    Line.warning (str "RAG_PROVIDER" ++ str ": 未设置") :=
  c9_empty_value_is_not_set
    (fun v => if v = str "RAG_PROVIDER" then some [] else none)
    (str "RAG_PROVIDER") (some (str "raganything")) (by decide) (by decide)

/-- One entry of `kb_base.iterdir()`: a directory entry with its name,
whether it is a directory, and which of the three marker paths
(`rag_storage`, `content_list`, `numbered_items.json`) exist under it. -/
structure KBDir where
  name : Str
  isDir : Bool
  hasRagStorage : Bool
  hasContentList : Bool
  hasNumberedItems : Bool
deriving DecidableEq

/-- One element of the list returned by `list_pipelines()`. -/
structure PipelineMeta where
  id : Str
  name : Str
  description : Str
deriving DecidableEq

/-- A constructed pipeline object, as far as `check_pipelines` inspects it:
whether it has the `_parser` attribute, and the component description
strings computed from its components when it does. -/
structure Pipeline where
  hasParserAttr : Bool
  componentLines : List Str
deriving DecidableEq

/-- The embedding client object: `client.config.model` when the client has a
`config` attribute. -/
structure EmbClient where
  configModel : Option Str
deriving DecidableEq

/-- The LLM configuration object returned by `get_llm_config()`. -/
structure LLMConfig where
  model : Str
  base_url : Str
deriving DecidableEq

/-- The result dictionary of `rag_search`: `answer` is `some s` when the
`"answer"` key is present with value `s`, `none` when the key is absent
(`result.get("answer", "")` then yields the empty string). -/
structure SearchResult where
  answer : Option Str
deriving DecidableEq

/-- One invocation of `rag_search`, with its four arguments. -/
structure SearchCall where
  query : Str
  kb : Str
  mode : Str
  provider : Str
deriving DecidableEq

/-- The outcomes of every external call the script can make, plus the
filesystem and environment it sees.  `Except.error e` stands for the call
raising a Python exception whose message is `e`; import outcomes stand for
`ImportError` being raised or not. -/
structure World where
  env : EnvMap
  projectRoot : Str
  raganythingPath : Str
  kbBasePath : Str
  embeddingOutcome : Except Str EmbClient
  llmOutcome : Except Str LLMConfig
  ragAnythingPathExists : Bool
  ragAnythingImport : Except Str Unit
  lightragImport : Except Str Unit
  factoryImport : Except Str Unit
  listPipelines : Except Str (List PipelineMeta)
  getPipeline : Str → Except Str Pipeline
  kbBaseExists : Bool
  kbEntries : List KBDir
  ragToolImport : Except Str Unit
  ragSearch : Str → Str → Str → Str → Except Str SearchResult

/-- `check_rag_anything_availability`: path existence report, then the
guarded import of `raganything`; `ImportError` is caught and reported. -/
def check_rag_anything_availability (w : World) : List Line × Bool :=
  let pathLines :=
    if w.ragAnythingPathExists then
      [Line.success (str "RAG-Anything 路径存在: " ++ w.raganythingPath)]
    else
      [Line.warning (str "RAG-Anything 路径不存在: " ++ w.raganythingPath),
       Line.info (str "这会影响 raganything, lightrag, academic pipeline")]
  match w.ragAnythingImport with
  | .ok _ =>
      (Line.header (str "RAG-Anything 依赖检查") :: pathLines ++
        [Line.success (str "可以导入 raganything 库")], true)
  | .error e =>
      (Line.header (str "RAG-Anything 依赖检查") :: pathLines ++
        [Line.error (str "无法导入 raganything: " ++ e)], false)

/-- `check_lightrag_availability`: guarded import of `lightrag`. -/
def check_lightrag_availability (w : World) : List Line × Bool :=
  match w.lightragImport with
  | .ok _ =>
      ([Line.header (str "LightRAG 依赖检查"),
        Line.success (str "可以导入 lightrag 库")], true)
  | .error e =>
      ([Line.header (str "LightRAG 依赖检查"),
        Line.error (str "无法导入 lightrag: " ++ e)], false)

/-- `check_embedding_service`: the import and client construction are inside
the `try`, so any exception becomes an error line and `False`. -/
def check_embedding_service (w : World) : List Line × Bool :=
  match w.embeddingOutcome with
  | .ok client =>
      ([Line.header (str "Embedding 服务检查"),
        Line.success (str "Embedding 客户端可用"),
        Line.info (str "Model: " ++ client.configModel.getD (str "unknown"))], true)
  | .error e =>
      ([Line.header (str "Embedding 服务检查"),
        Line.error (str "Embedding 服务错误: " ++ e)], false)

/-- `check_llm_service`: the import and config construction are inside the
`try`; the base URL is truncated to 50 characters when longer. -/
def check_llm_service (w : World) : List Line × Bool :=
  match w.llmOutcome with
  | .ok config =>
      ([Line.header (str "LLM 服务检查"),
        Line.success (str "LLM 配置可用"),
        Line.info (str "Model: " ++ config.model),
        (if 50 < config.base_url.length then
          Line.info (str "Base URL: " ++ config.base_url.take 50 ++ str "...")
         else
          Line.info (str "Base URL: " ++ config.base_url))], true)
  | .error e =>
      ([Line.header (str "LLM 服务检查"),
        Line.error (str "LLM 服务错误: " ++ e)], false)

/-- Python dict assignment `results[pid] = v`: replaces the value in place
when the key is present, appends otherwise (insertion order preserved). -/
def dictInsert (m : List (Str × Str)) (k v : Str) : List (Str × Str) :=
  match m with
  | [] => [(k, v)]
  | (k0, v0) :: rest =>
      if k0 = k then (k0, v) :: rest else (k0, v0) :: dictInsert rest k v

/-- Python `d.get(k)` / `d.get(k, default)` support: first (unique) match. -/
def dictGet (m : List (Str × Str)) (k : Str) : Option Str :=
  match m with
  | [] => none
  | (k0, v0) :: rest => if k0 = k then some v0 else dictGet rest k

/-- The loop body of `check_pipelines` over the registered pipelines:
`get_pipeline` is inside the `try`, so a construction failure becomes an
error line and an `"error: ..."` entry, while success yields component info
lines and an `"available"` entry. -/
def pipeLoop (w : World) : List PipelineMeta → List (Str × Str) → List Line × List (Str × Str)
  | [], acc => ([], acc)
  | p :: rest, acc =>
      let pre := [Line.plain (str "[" ++ p.id ++ str "] " ++ p.name),
                  Line.plain (str "描述: " ++ p.description)]
      match w.getPipeline p.id with
      | .ok pl =>
          let compLines :=
            if pl.hasParserAttr then pl.componentLines.map Line.info else []
          let next := pipeLoop w rest (dictInsert acc p.id (str "available"))
          (pre ++ [Line.success (str "Pipeline 实例创建成功")] ++ compLines ++ next.1,
           next.2)
      | .error e =>
          let next := pipeLoop w rest (dictInsert acc p.id (str "error: " ++ e))
          (pre ++ [Line.error (str "Pipeline 创建失败: " ++ e)] ++ next.1, next.2)

/-- `check_pipelines`: the `from src.services.rag.factory import ...` and the
`list_pipelines()` call stand OUTSIDE any `try`, so their failures
propagate; only `get_pipeline` is guarded. -/
def check_pipelines (w : World) : Except Str (List Line × List (Str × Str)) := do
  _ ← w.factoryImport
  let pipelines ← w.listPipelines
  let looped := pipeLoop w pipelines []
  pure (Line.header (str "Pipeline 可用性检查") ::
          Line.info (str "已注册 " ++ natToStr pipelines.length ++ str " 个 pipeline\n") ::
          looped.1,
        looped.2)

/-- The `status` list built for one knowledge-base directory: the present
markers, in the fixed order rag_storage, content_list, numbered_items. -/
def statusOf (d : KBDir) : List Str :=
  (if d.hasRagStorage then [str "rag_storage"] else []) ++
  (if d.hasContentList then [str "content_list"] else []) ++
  (if d.hasNumberedItems then [str "numbered_items"] else [])

/-- The loop of `check_existing_knowledge_bases` over `kb_base.iterdir()`:
non-directories are skipped; a directory with at least one marker is
reported found and collected, a directory with none is reported empty and
not collected. -/
def scanKBs : List KBDir → List Line × List Str
  | [] => ([], [])
  | d :: rest =>
      let next := scanKBs rest
      if d.isDir then
        if (statusOf d).isEmpty then
          (Line.warning (d.name ++ str ": 空知识库") :: next.1, next.2)
        else
          (Line.success (d.name ++ str ": " ++ joinSep (str ", ") (statusOf d)) :: next.1,
           d.name :: next.2)
      else next

/-- `check_existing_knowledge_bases`: missing root reports a warning and
returns the empty list; otherwise the directory loop runs, with a trailing
warning when no usable knowledge base was collected. -/
def check_existing_knowledge_bases (w : World) : List Line × List Str :=
  if w.kbBaseExists then
    let scanned := scanKBs w.kbEntries
    (Line.header (str "已有知识库检查") :: scanned.1 ++
      (if scanned.2.isEmpty then [Line.warning (str "没有找到已初始化的知识库")] else []),
     scanned.2)
  else
    ([Line.header (str "已有知识库检查"),
      Line.warning (str "知识库目录不存在: " ++ w.kbBasePath)], [])

/-- The fixed query string of `test_pipeline_search`. -/
def fixedQuery : Str := str "What is the main topic?"

/-- A `rag_search` invocation as issued by `test_pipeline_search`. -/
def theCall (kb pid : Str) : SearchCall :=
  ⟨fixedQuery, kb, str "naive", pid⟩

/-- `test_pipeline_search`: the two module imports at the top of the
function body are NOT inside the `try`, so an `ImportError` there
propagates.  When no knowledge-base name is supplied, a knowledge base with
`rag_storage` is looked up on disk; a supplied name is used as is.  Only the
`rag_search` call is guarded.  Returns the printed lines, the list of
`rag_search` invocations issued, and the boolean result. -/
def test_pipeline_search (w : World) (pipeline_id : Str) (kb_name : Option Str) :
    Except Str (List Line × List SearchCall × Bool) := do
  _ ← w.ragToolImport
  _ ← w.factoryImport
  let l0 := Line.plain (str "测试 " ++ pipeline_id ++ str " 搜索功能...")
  let resolved : List Line × Option Str :=
    match kb_name with
    | some k => ([], some k)
    | none =>
        if w.kbBaseExists then
          match (w.kbEntries.filter (fun d => d.isDir && d.hasRagStorage)).map KBDir.name with
          | k :: _ => ([Line.info (str "使用已有知识库: " ++ k)], some k)
          | [] => ([], none)
        else ([], none)
  match resolved.2 with
  | none =>
      pure (l0 :: resolved.1 ++
              [Line.warning (str "没有找到可用的知识库，跳过搜索测试")], [], false)
  | some k =>
      match w.ragSearch fixedQuery k (str "naive") pipeline_id with
      | .ok result =>
          let answer_len := (result.answer.getD []).length
          if 0 < answer_len then
            pure (l0 :: resolved.1 ++
                    [Line.success (str "搜索成功，返回 " ++ natToStr answer_len ++ str " 字符")],
                  [theCall k pipeline_id], true)
          else
            pure (l0 :: resolved.1 ++ [Line.warning (str "搜索返回空结果")],
                  [theCall k pipeline_id], false)
      | .error e =>
          pure (l0 :: resolved.1 ++ [Line.error (str "搜索失败: " ++ e)],
                [theCall k pipeline_id], false)

/-- Opening brace character, for Python `repr` of a dict. -/
def lbrace : Char := Char.ofNat 123

/-- Closing brace character, for Python `repr` of a dict. -/
def rbrace : Char := Char.ofNat 125

/-- Single-quote character, for Python `repr` of a string. -/
def squote : Char := Char.ofNat 39

/-- Python `repr` of a string (quote escaping inside the string is not
modelled; no diagnostic value contains a quote). -/
def pyRepr (s : Str) : Str := squote :: s ++ [squote]

/-- Python `repr` of a dict of strings, as interpolated by an f-string. -/
def reprDict (m : List (Str × Str)) : Str :=
  lbrace :: joinSep (str ", ") (m.map (fun kv => pyRepr kv.1 ++ str ": " ++ pyRepr kv.2)) ++
    [rbrace]

/-- Python `repr` of a list of strings, as interpolated by an f-string. -/
def reprList (l : List Str) : Str :=
  str "[" ++ joinSep (str ", ") (l.map pyRepr) ++ str "]"

/-- The `results` dictionary accumulated by `main`, in insertion order. -/
structure Results where
  embedding_service : Bool
  llm_service : Bool
  rag_anything_lib : Bool
  lightrag_lib : Bool
  pipelines : List (Str × Str)
  knowledge_bases : List Str
deriving DecidableEq

/-- The summary line for the boolean-valued entries of `results`
(`value is True` prints available, `value is False` prints unavailable). -/
def summaryBoolLine (key : Str) (b : Bool) : Line :=
  if b then Line.success (key ++ str ": 可用") else Line.error (key ++ str ": 不可用")

/-- `print_summary`: iterates the `results` dict in insertion order.  The
`pipelines` dict value and the `knowledge_bases` list value match none of
`is True` / `== "available"` / `is False` / string starting with `"error"`,
so they fall to the final warning branch with their `repr`. -/
def print_summary (r : Results) : List Line :=
  [Line.header (str "诊断总结"),
   summaryBoolLine (str "embedding_service") r.embedding_service,
   summaryBoolLine (str "llm_service") r.llm_service,
   summaryBoolLine (str "rag_anything_lib") r.rag_anything_lib,
   summaryBoolLine (str "lightrag_lib") r.lightrag_lib,
   Line.warning (str "pipelines: " ++ reprDict r.pipelines),
   Line.warning (str "knowledge_bases: " ++ reprList r.knowledge_bases)]

/-- The three fixed remediation texts of `print_recommendations`. -/
def recInstallRagAnything : Str :=
  str "安装 RAG-Anything:\n    git clone https://github.com/HKUDS/RAG-Anything.git ../raganything/RAG-Anything\n    pip install -r ../raganything/RAG-Anything/requirements.txt"

/-- Remediation text for a failing embedding service. -/
def recEmbedding : Str :=
  str "配置 Embedding 服务:\n    确保在 DeepTutor.env 或 .env 中设置了正确的 API key 和 base URL"

/-- Remediation text for a failing LLM service. -/
def recLLM : Str :=
  str "配置 LLM 服务:\n    确保在 DeepTutor.env 或 .env 中设置了正确的 OPENAI_API_KEY"

/-- `print_recommendations`: collects the applicable remediation texts, then
(before printing them) prints the llamaindex note when that pipeline is
available, then prints the numbered remediation list, or an all-good success
line when it is empty. -/
def print_recommendations (r : Results) : List Line :=
  let recommendations :=
    (if !r.rag_anything_lib then [recInstallRagAnything] else []) ++
    (if !r.embedding_service then [recEmbedding] else []) ++
    (if !r.llm_service then [recLLM] else [])
  Line.header (str "建议") ::
    (if dictGet r.pipelines (str "llamaindex") = some (str "available") then
      [Line.success (str "llamaindex pipeline 可以在没有 RAG-Anything 的情况下使用 (轻量级向量搜索)")]
     else []) ++
    (if recommendations.isEmpty then
      [Line.success (str "所有服务正常运行!")]
     else
      recommendations.enum.map (fun p => Line.plain (natToStr (p.1 + 1) ++ str ". " ++ p.2)))

/-- `main`: the fixed sequence of checks.  `check_pipelines` (and, when the
search test runs, the imports inside `test_pipeline_search`) can raise; every
other step is total.  Returns all printed lines and all `rag_search`
invocations issued.  (Named `runMain` because Lean reserves `main` for an
executable entry point.) -/
def runMain (w : World) : Except Str (List Line × List SearchCall) :=
  let banner := [Line.plain (str "DeepTutor RAG Pipeline 诊断工具"),
                 Line.plain (str "项目根目录: " ++ w.projectRoot)]
  let envLines := check_environment w.env
  let emb := check_embedding_service w
  let llm := check_llm_service w
  let ra := check_rag_anything_availability w
  let lr := check_lightrag_availability w
  match check_pipelines w with
  | .error e => .error e
  | .ok pipes =>
    let kb := check_existing_knowledge_bases w
    let results : Results := ⟨emb.2, llm.2, ra.2, lr.2, pipes.2, kb.2⟩
    let sumLines := print_summary results
    let recLines := print_recommendations results
    let before := banner ++ envLines ++ emb.1 ++ llm.1 ++ ra.1 ++ lr.1 ++ pipes.1 ++
      kb.1 ++ sumLines ++ recLines
    if !kb.2.isEmpty && ra.2 then
      match test_pipeline_search w (str "raganything") (some (kb.2.headD [])) with
      | .error e => .error e
      | .ok t => .ok (before ++ Line.header (str "搜索功能测试") :: t.1, t.2.1)
    else
      .ok (before, [])

/-- A convenient fully-healthy world for concrete instantiations. -/
def wBase : World :=
  ⟨fun _ => none,
   str "/home/u/DeepTutor",
   str "/home/u/raganything/RAG-Anything",
   str "/home/u/DeepTutor/data/knowledge_bases",
   .ok ⟨some (str "text-embedding-3-small")⟩,
   .ok ⟨str "gpt-4o", str "https://api.openai.com/v1"⟩,
   true,
   .ok (),
   .ok (),
   .ok (),
   .ok [⟨str "raganything", str "RAG-Anything", str "multimodal RAG"⟩],
   fun _ => .ok ⟨false, []⟩,
   true,
   [⟨str "kb1", true, true, true, false⟩],
   .ok (),
   fun _ _ _ _ => .ok ⟨some (str "An answer")⟩⟩

/-- The knowledge-base names collected by the scan, described directly from
the filesystem state: the directory entries holding at least one marker. -/
def usableKBNames (w : World) : List Str :=
  if w.kbBaseExists then
    (w.kbEntries.filter (fun d => d.isDir && !(statusOf d).isEmpty)).map KBDir.name
  else []

/-- Whether an external-call outcome raised. -/
def isOk : Except Str Unit → Bool
  | .ok _ => true
  | .error _ => false

/-- The condition under which `runMain` runs the live search test, described
from the world: at least one usable knowledge base and an importable
`raganything`. -/
def searchAttempted (w : World) : Bool :=
  !(usableKBNames w).isEmpty && isOk w.ragAnythingImport

theorem scanKBs_snd (l : List KBDir) :
    (scanKBs l).2 = (l.filter (fun d => d.isDir && !(statusOf d).isEmpty)).map KBDir.name := by
  induction l with
  | nil => rfl
  | cons d rest ih =>
      by_cases hd : d.isDir = true
      · by_cases he : (statusOf d).isEmpty = true
        · simp [scanKBs, hd, he, List.filter_cons, ih]
        · simp only [Bool.not_eq_true] at he
          simp [scanKBs, hd, he, List.filter_cons, ih]
      · simp only [Bool.not_eq_true] at hd
        simp [scanKBs, hd, List.filter_cons, ih]

theorem check_kb_snd (w : World) :
    (check_existing_knowledge_bases w).2 = usableKBNames w := by
  by_cases hex : w.kbBaseExists = true
  · simp [check_existing_knowledge_bases, hex, usableKBNames, scanKBs_snd]
  · simp only [Bool.not_eq_true] at hex
    simp [check_existing_knowledge_bases, hex, usableKBNames]

theorem scanKBs_cons_fst (e : KBDir) (rest : List KBDir) :
    (scanKBs (e :: rest)).1 =
      (if e.isDir then
        (if (statusOf e).isEmpty then [Line.warning (e.name ++ str ": 空知识库")]
         else [Line.success (e.name ++ str ": " ++ joinSep (str ", ") (statusOf e))])
       else []) ++ (scanKBs rest).1 := by
  by_cases hd : e.isDir = true
  · by_cases he : (statusOf e).isEmpty = true
    · simp [scanKBs, hd, he]
    · simp only [Bool.not_eq_true] at he
      simp [scanKBs, hd, he]
  · simp only [Bool.not_eq_true] at hd
    simp [scanKBs, hd]

theorem scanKBs_mem_success (l : List KBDir) (d : KBDir) (hmem : d ∈ l)
    (hd : d.isDir = true) (hne : ¬(statusOf d).isEmpty = true) :
    Line.success (d.name ++ str ": " ++ joinSep (str ", ") (statusOf d)) ∈ (scanKBs l).1 := by
  induction l with
  | nil => cases hmem
  | cons e rest ih =>
      rw [scanKBs_cons_fst]
      rcases List.mem_cons.mp hmem with h | h
      · subst h
        apply List.mem_append_left
        simp [hd, hne]
      · exact List.mem_append_right _ (ih h)

theorem scanKBs_mem_warning (l : List KBDir) (d : KBDir) (hmem : d ∈ l)
    (hd : d.isDir = true) (he : (statusOf d).isEmpty = true) :
    Line.warning (d.name ++ str ": 空知识库") ∈ (scanKBs l).1 := by
  induction l with
  | nil => cases hmem
  | cons e rest ih =>
      rw [scanKBs_cons_fst]
      rcases List.mem_cons.mp hmem with h | h
      · subst h
        apply List.mem_append_left
        simp [hd, he]
      · exact List.mem_append_right _ (ih h)

/-- C4: with the knowledge-base root present, the returned usable-KB list is
exactly the names of the directory entries holding at least one marker; a
directory with at least one marker is reported with a success line listing
exactly the present markers and its name is in the returned list; a
directory with none is reported with the empty-KB warning (and, by the first
conjunct, is excluded from the returned list); and a directory holding only
`content_list` has exactly `["content_list"]` as its marker list. -/
theorem c4_kb_scan (w : World) (hex : w.kbBaseExists = true) :
    (check_existing_knowledge_bases w).2 =
      (w.kbEntries.filter (fun d => d.isDir && !(statusOf d).isEmpty)).map KBDir.name ∧
    (∀ d ∈ w.kbEntries, d.isDir = true →
      (¬(statusOf d).isEmpty = true →
        Line.success (d.name ++ str ": " ++ joinSep (str ", ") (statusOf d)) ∈
          (check_existing_knowledge_bases w).1 ∧
        d.name ∈ (check_existing_knowledge_bases w).2) ∧
      ((statusOf d).isEmpty = true →
        Line.warning (d.name ++ str ": 空知识库") ∈ (check_existing_knowledge_bases w).1)) ∧
    (∀ nm, statusOf ⟨nm, true, false, true, false⟩ = [str "content_list"]) := by
  have hsnd : (check_existing_knowledge_bases w).2 =
      (w.kbEntries.filter (fun d => d.isDir && !(statusOf d).isEmpty)).map KBDir.name := by
    rw [check_kb_snd]; simp [usableKBNames, hex]
  have hfst : (check_existing_knowledge_bases w).1 =
      Line.header (str "已有知识库检查") :: (scanKBs w.kbEntries).1 ++
        (if (scanKBs w.kbEntries).2.isEmpty then
          [Line.warning (str "没有找到已初始化的知识库")] else []) := by
    simp [check_existing_knowledge_bases, hex]
  refine ⟨hsnd, ?_, ?_⟩
  · intro d hmem hd
    constructor
    · intro hne
      constructor
      · rw [hfst]
        exact List.mem_cons_of_mem _
          (List.mem_append_left _ (scanKBs_mem_success w.kbEntries d hmem hd hne))
      · rw [hsnd]
        exact List.mem_map.mpr ⟨d, List.mem_filter.mpr ⟨hmem, by simp [hd, hne]⟩, rfl⟩
    · intro he
      rw [hfst]
      exact List.mem_cons_of_mem _
        (List.mem_append_left _ (scanKBs_mem_warning w.kbEntries d hmem hd he))
  · intro nm
    simp [statusOf]

/-- C4 witness: a root with one directory holding only `content_list` (found,
collected) and one with no marker (reported empty). -/
theorem c4_kb_scan_witness :
    ((({ wBase with
          kbEntries := [⟨str "kbA", true, false, true, false⟩,
                        ⟨str "kbB", true, false, false, false⟩] } : World)).kbBaseExists = true) ∧
    (check_existing_knowledge_bases
        ({ wBase with
            kbEntries := [⟨str "kbA", true, false, true, false⟩,
                          ⟨str "kbB", true, false, false, false⟩] } : World)).2 =
      ((({ wBase with
            kbEntries := [⟨str "kbA", true, false, true, false⟩,
                          ⟨str "kbB", true, false, false, false⟩] } : World)).kbEntries.filter
          (fun d => d.isDir && !(statusOf d).isEmpty)).map KBDir.name := by
  refine ⟨rfl, ?_⟩
  exact (c4_kb_scan
    ({ wBase with
        kbEntries := [⟨str "kbA", true, false, true, false⟩,
                      ⟨str "kbB", true, false, false, false⟩] } : World) rfl).1

theorem strStartsWith_append (q p r : Str) (h : strStartsWith p q = true) :
    strStartsWith (p ++ r) q = true := by
  induction q generalizing p with
  | nil => simp [strStartsWith]
  | cons c t ih =>
      cases p with
      | nil => simp [strStartsWith] at h
      | cons d s =>
          simp [strStartsWith] at h ⊢
          exact ⟨h.1, ih s h.2⟩

theorem dictInsert_snd_mem (m : List (Str × Str)) (k v : Str) (x : Str × Str)
    (hx : x ∈ dictInsert m k v) : x ∈ m ∨ x.2 = v := by
  induction m with
  | nil =>
      simp [dictInsert] at hx
      simp [hx]
  | cons p rest ih =>
      obtain ⟨k0, v0⟩ := p
      by_cases hk : k0 = k
      · simp [dictInsert, hk] at hx
        rcases hx with h | h
        · right; simp [h]
        · left; exact List.mem_cons_of_mem _ h
      · simp [dictInsert, hk] at hx
        rcases hx with h | h
        · left; simp [h]
        · rcases ih h with h2 | h2
          · left; exact List.mem_cons_of_mem _ h2
          · right; exact h2

theorem pipeLoop_values (w : World) (ps : List PipelineMeta) (acc : List (Str × Str))
    (hacc : ∀ kv ∈ acc, kv.2 = str "available" ∨ strStartsWith kv.2 (str "error") = true) :
    ∀ kv ∈ (pipeLoop w ps acc).2,
      kv.2 = str "available" ∨ strStartsWith kv.2 (str "error") = true := by
  induction ps generalizing acc with
  | nil => simpa [pipeLoop] using hacc
  | cons p rest ih =>
      intro kv hkv
      cases hpl : w.getPipeline p.id with
      | ok pl =>
          have h2 : (pipeLoop w (p :: rest) acc).2 =
              (pipeLoop w rest (dictInsert acc p.id (str "available"))).2 := by
            simp [pipeLoop, hpl]
          rw [h2] at hkv
          refine ih (dictInsert acc p.id (str "available")) ?_ kv hkv
          intro kv2 hkv2
          rcases dictInsert_snd_mem acc p.id (str "available") kv2 hkv2 with h | h
          · exact hacc kv2 h
          · exact Or.inl h
      | error e =>
          have h2 : (pipeLoop w (p :: rest) acc).2 =
              (pipeLoop w rest (dictInsert acc p.id (str "error: " ++ e))).2 := by
            simp [pipeLoop, hpl]
          rw [h2] at hkv
          refine ih (dictInsert acc p.id (str "error: " ++ e)) ?_ kv hkv
          intro kv2 hkv2
          rcases dictInsert_snd_mem acc p.id (str "error: " ++ e) kv2 hkv2 with h | h
          · exact hacc kv2 h
          · right
            rw [h]
            exact strStartsWith_append (str "error") (str "error: ") e (by decide)

/-- C7: when the pipeline registry is reachable, the pipeline check prints
the registered count (zero entries when the registry lists none), returns
the empty result mapping for an empty registry, and every value of the
returned mapping is either `"available"` or a string starting with
`"error"`. -/
theorem c7_pipeline_results (w : World) (ps : List PipelineMeta)
    (lines : List Line) (res : List (Str × Str))
    (hf : w.factoryImport = .ok ()) (hl : w.listPipelines = .ok ps)
    (hc : check_pipelines w = .ok (lines, res)) :
    Line.info (str "已注册 " ++ natToStr ps.length ++ str " 个 pipeline\n") ∈ lines ∧
    (ps = [] → res = []) ∧
    (∀ kv ∈ res, kv.2 = str "available" ∨ strStartsWith kv.2 (str "error") = true) := by
  have hc2 : check_pipelines w =
      .ok (Line.header (str "Pipeline 可用性检查") ::
             Line.info (str "已注册 " ++ natToStr ps.length ++ str " 个 pipeline\n") ::
             (pipeLoop w ps []).1,
           (pipeLoop w ps []).2) := by
    simp only [check_pipelines, hf, hl]
    rfl
  rw [hc2] at hc
  obtain ⟨hlines, hres⟩ : lines = _ ∧ res = _ := by
    have := Except.ok.inj hc
    exact ⟨congrArg Prod.fst this.symm, congrArg Prod.snd this.symm⟩
  refine ⟨?_, ?_, ?_⟩
  · rw [hlines]
    exact List.mem_cons_of_mem _ (List.mem_cons_self _ _)
  · intro hps
    rw [hres, hps]
    rfl
  · rw [hres]
    exact pipeLoop_values w ps [] (by intro kv h; cases h)

/-- C7 witness: a world whose registry lists no pipeline yields the zero
count and the empty mapping; hypotheses discharged by evaluation. -/
theorem c7_pipeline_results_witness :
    (check_pipelines { wBase with listPipelines := Except.ok [] } =
      Except.ok (Line.header (str "Pipeline 可用性检查") ::
                   Line.info (str "已注册 " ++ natToStr 0 ++ str " 个 pipeline\n") :: [],
                 [])) ∧
    Line.info (str "已注册 " ++ natToStr ([] : List PipelineMeta).length ++ str " 个 pipeline\n") ∈
      (Line.header (str "Pipeline 可用性检查") ::
        Line.info (str "已注册 " ++ natToStr 0 ++ str " 个 pipeline\n") :: []) := by
  refine ⟨rfl, ?_⟩
  exact (c7_pipeline_results { wBase with listPipelines := Except.ok [] } []
    (Line.header (str "Pipeline 可用性检查") ::
      Line.info (str "已注册 " ++ natToStr 0 ++ str " 个 pipeline\n") :: [])
    [] rfl rfl rfl).1

theorem test_some_eq (w : World) (pid kb : Str)
    (h1 : w.ragToolImport = .ok ()) (h2 : w.factoryImport = .ok ()) :
    test_pipeline_search w pid (some kb) =
      (match w.ragSearch fixedQuery kb (str "naive") pid with
       | .ok r =>
           if 0 < (r.answer.getD []).length then
             .ok ([Line.plain (str "测试 " ++ pid ++ str " 搜索功能..."),
                   Line.success (str "搜索成功，返回 " ++
                     natToStr (r.answer.getD []).length ++ str " 字符")],
                  [theCall kb pid], true)
           else
             .ok ([Line.plain (str "测试 " ++ pid ++ str " 搜索功能..."),
                   Line.warning (str "搜索返回空结果")],
                  [theCall kb pid], false)
       | .error e =>
           .ok ([Line.plain (str "测试 " ++ pid ++ str " 搜索功能..."),
                 Line.error (str "搜索失败: " ++ e)],
                [theCall kb pid], false)) := by
  cases hs : w.ragSearch fixedQuery kb (str "naive") pid with
  | ok r =>
      simp only [test_pipeline_search, h1, h2, hs]
      rfl
  | error e =>
      simp only [test_pipeline_search, h1, h2, hs]
      rfl

/-- C5: when the live search call completes and the returned answer field is
the empty string, the search test returns `Except.ok` (the run completes)
with result `false`, reporting the empty-result warning and no error
line. -/
theorem c5_empty_answer_warns (w : World) (pid kb : Str) (r : SearchResult)
    (h1 : w.ragToolImport = .ok ()) (h2 : w.factoryImport = .ok ())
    (h3 : w.ragSearch fixedQuery kb (str "naive") pid = .ok r)
    (h4 : r.answer = some []) :
    test_pipeline_search w pid (some kb) =
      .ok ([Line.plain (str "测试 " ++ pid ++ str " 搜索功能..."),
            Line.warning (str "搜索返回空结果")],
           [theCall kb pid], false) ∧
    Line.warning (str "搜索返回空结果") ∈
      [Line.plain (str "测试 " ++ pid ++ str " 搜索功能..."),
       Line.warning (str "搜索返回空结果")] ∧
    (∀ s, Line.error s ∉
      [Line.plain (str "测试 " ++ pid ++ str " 搜索功能..."),
       Line.warning (str "搜索返回空结果")]) := by
  refine ⟨?_, by simp, by intro s; simp⟩
  rw [test_some_eq w pid kb h1 h2, h3]
  simp [h4]

/-- C5 witness: a world whose search returns an empty answer string. -/
theorem c5_empty_answer_warns_witness :
    test_pipeline_search
        ({ wBase with ragSearch := fun _ _ _ _ => Except.ok ⟨some []⟩ } : World)
        (str "raganything") (some (str "kb1")) =
      Except.ok ([Line.plain (str "测试 " ++ str "raganything" ++ str " 搜索功能..."),
                  Line.warning (str "搜索返回空结果")],
                 [theCall (str "kb1") (str "raganything")], false) :=
  (c5_empty_answer_warns
    ({ wBase with ragSearch := fun _ _ _ _ => Except.ok ⟨some []⟩ } : World)
    (str "raganything") (str "kb1") ⟨some []⟩ rfl rfl rfl rfl).1

/-- C10: when the search test is called with an explicitly supplied
knowledge-base name, that knowledge base is used for the one search call
issued, with no check that it has `rag_storage` — in particular for a world
in which no directory entry of that name has `rag_storage`. -/
theorem c10_no_rag_storage_filter (w : World) (pid kb : Str)
    (h1 : w.ragToolImport = .ok ()) (h2 : w.factoryImport = .ok ())
    (hmk : ∀ d ∈ w.kbEntries, d.name = kb → d.hasRagStorage = false) :
    ∃ lines b,
      test_pipeline_search w pid (some kb) = .ok (lines, [theCall kb pid], b) := by
  rw [test_some_eq w pid kb h1 h2]
  split
  next r heq =>
    by_cases hn : 0 < (r.answer.getD []).length
    · exact ⟨_, true, if_pos hn⟩
    · exact ⟨_, false, if_neg hn⟩
  next e heq => exact ⟨_, false, rfl⟩

/-- C10 witness: a world whose only knowledge-base directory has
`content_list` but no `rag_storage`; the supplied name is still searched. -/
theorem c10_no_rag_storage_filter_witness :
    ∃ lines b,
      test_pipeline_search
          ({ wBase with kbEntries := [⟨str "kbC", true, false, true, false⟩] } : World)
          (str "raganything") (some (str "kbC")) =
        Except.ok (lines, [theCall (str "kbC") (str "raganything")], b) :=
  c10_no_rag_storage_filter
    ({ wBase with kbEntries := [⟨str "kbC", true, false, true, false⟩] } : World)
    (str "raganything") (str "kbC") rfl rfl (by decide)

theorem check_pipelines_eq (w : World) (ps : List PipelineMeta)
    (hf : w.factoryImport = .ok ()) (hl : w.listPipelines = .ok ps) :
    check_pipelines w =
      .ok (Line.header (str "Pipeline 可用性检查") ::
             Line.info (str "已注册 " ++ natToStr ps.length ++ str " 个 pipeline\n") ::
             (pipeLoop w ps []).1,
           (pipeLoop w ps []).2) := by
  simp only [check_pipelines, hf, hl]
  rfl

theorem test_import_err1 (w : World) (pid : Str) (kbn : Option Str) (e : Str)
    (h1 : w.ragToolImport = .error e) :
    test_pipeline_search w pid kbn = .error e := by
  simp only [test_pipeline_search, h1]
  rfl

theorem test_import_err2 (w : World) (pid : Str) (kbn : Option Str) (e : Str)
    (h1 : w.ragToolImport = .ok ()) (h2 : w.factoryImport = .error e) :
    test_pipeline_search w pid kbn = .error e := by
  simp only [test_pipeline_search, h1, h2]
  rfl

theorem test_some_eq_ok (w : World) (pid kb : Str) (r : SearchResult)
    (h1 : w.ragToolImport = .ok ()) (h2 : w.factoryImport = .ok ())
    (hs : w.ragSearch fixedQuery kb (str "naive") pid = .ok r) :
    test_pipeline_search w pid (some kb) =
      (if 0 < (r.answer.getD []).length then
        .ok ([Line.plain (str "测试 " ++ pid ++ str " 搜索功能..."),
              Line.success (str "搜索成功，返回 " ++
                natToStr (r.answer.getD []).length ++ str " 字符")],
             [theCall kb pid], true)
       else
        .ok ([Line.plain (str "测试 " ++ pid ++ str " 搜索功能..."),
              Line.warning (str "搜索返回空结果")],
             [theCall kb pid], false)) := by
  rw [test_some_eq w pid kb h1 h2, hs]

theorem test_some_eq_err (w : World) (pid kb e : Str)
    (h1 : w.ragToolImport = .ok ()) (h2 : w.factoryImport = .ok ())
    (hs : w.ragSearch fixedQuery kb (str "naive") pid = .error e) :
    test_pipeline_search w pid (some kb) =
      .ok ([Line.plain (str "测试 " ++ pid ++ str " 搜索功能..."),
            Line.error (str "搜索失败: " ++ e)],
           [theCall kb pid], false) := by
  rw [test_some_eq w pid kb h1 h2, hs]

theorem test_some_ok (w : World) (pid kb : Str)
    (h1 : w.ragToolImport = .ok ()) (h2 : w.factoryImport = .ok ()) :
    ∃ t, test_pipeline_search w pid (some kb) = .ok t := by
  cases hs : w.ragSearch fixedQuery kb (str "naive") pid with
  | ok r =>
      rw [test_some_eq_ok w pid kb r h1 h2 hs]
      by_cases hn : 0 < (r.answer.getD []).length
      · exact ⟨_, if_pos hn⟩
      · exact ⟨_, if_neg hn⟩
  | error e => exact ⟨_, test_some_eq_err w pid kb e h1 h2 hs⟩

/-- The world of the C1 counterexample: every external call healthy except
the pipeline registry listing, which raises. -/
def wRegistryDown : World :=
  { wBase with listPipelines := Except.error (str "registry down") }

/-- C1 counterexample: when the pipeline registry access fails, the failure
is NOT caught — `check_pipelines` calls the factory import and
`list_pipelines()` outside any `try`, so the exception propagates out of
`main` and the run does not complete. -/
theorem c1_registry_failure_propagates :
    runMain wRegistryDown = Except.error (str "registry down") := rfl

/-- C1 (amended): provided the pipeline registry access (factory import and
listing) and the search-tool module import succeed, every combination of
the remaining external-call failures — service client construction, the two
optional-library imports, pipeline construction, the search call — is
caught locally and the run completes successfully. -/
theorem c1_no_raise_when_registry_ok (w : World) (ps : List PipelineMeta)
    (hf : w.factoryImport = .ok ()) (hl : w.listPipelines = .ok ps)
    (ht : w.ragToolImport = .ok ()) :
    ∃ out, runMain w = .ok out := by
  simp only [runMain, check_pipelines_eq w ps hf hl]
  by_cases hcond :
      (!(check_existing_knowledge_bases w).2.isEmpty &&
        (check_rag_anything_availability w).2) = true
  · rw [if_pos hcond]
    obtain ⟨t, htst⟩ :=
      test_some_ok w (str "raganything") ((check_existing_knowledge_bases w).2.headD [])
        ht hf
    rw [htst]
    exact ⟨_, rfl⟩
  · rw [if_neg hcond]
    exact ⟨_, rfl⟩

/-- C1 witness: a world in which both service constructions, both optional
imports, every pipeline construction and the search call all fail, yet the
registry and search-tool imports succeed: the run completes. -/
theorem c1_no_raise_when_registry_ok_witness :
    ∃ out,
      runMain
        ({ wBase with
            embeddingOutcome := Except.error (str "emb down"),
            llmOutcome := Except.error (str "llm down"),
            ragAnythingImport := Except.error (str "no raganything"),
            lightragImport := Except.error (str "no lightrag"),
            getPipeline := fun _ => Except.error (str "ctor fail"),
            ragSearch := fun _ _ _ _ => Except.error (str "search fail") } : World) =
        Except.ok out :=
  c1_no_raise_when_registry_ok
    ({ wBase with
        embeddingOutcome := Except.error (str "emb down"),
        llmOutcome := Except.error (str "llm down"),
        ragAnythingImport := Except.error (str "no raganything"),
        lightragImport := Except.error (str "no lightrag"),
        getPipeline := fun _ => Except.error (str "ctor fail"),
        ragSearch := fun _ _ _ _ => Except.error (str "search fail") } : World)
    [⟨str "raganything", str "RAG-Anything", str "multimodal RAG"⟩] rfl rfl rfl

theorem ra_snd (w : World) :
    (check_rag_anything_availability w).2 = isOk w.ragAnythingImport := by
  cases hra : w.ragAnythingImport with
  | ok u => simp [check_rag_anything_availability, hra, isOk]
  | error e => simp [check_rag_anything_availability, hra, isOk]

theorem cond_eq_searchAttempted (w : World) :
    (!(check_existing_knowledge_bases w).2.isEmpty &&
      (check_rag_anything_availability w).2) = searchAttempted w := by
  rw [check_kb_snd, ra_snd, searchAttempted]

theorem test_some_calls (w : World) (pid kb : Str)
    (t : List Line × List SearchCall × Bool)
    (h : test_pipeline_search w pid (some kb) = .ok t) :
    t.2.1 = [theCall kb pid] := by
  cases h1 : w.ragToolImport with
  | error e => rw [test_import_err1 w pid (some kb) e h1] at h; cases h
  | ok u =>
      cases u
      cases h2 : w.factoryImport with
      | error e => rw [test_import_err2 w pid (some kb) e h1 h2] at h; cases h
      | ok u2 =>
          cases u2
          cases hs : w.ragSearch fixedQuery kb (str "naive") pid with
          | ok r =>
              rw [test_some_eq_ok w pid kb r h1 h2 hs] at h
              by_cases hn : 0 < (r.answer.getD []).length
              · rw [if_pos hn] at h
                rw [← Except.ok.inj h]
              · rw [if_neg hn] at h
                rw [← Except.ok.inj h]
          | error e =>
              rw [test_some_eq_err w pid kb e h1 h2 hs] at h
              rw [← Except.ok.inj h]

theorem runMain_calls (w : World) (lines : List Line) (calls : List SearchCall)
    (h : runMain w = .ok (lines, calls)) :
    calls = (if searchAttempted w then
               [theCall ((usableKBNames w).headD []) (str "raganything")]
             else []) := by
  rw [← cond_eq_searchAttempted w]
  unfold runMain at h
  cases hc : check_pipelines w with
  | error e => rw [hc] at h; cases h
  | ok pipes =>
      rw [hc] at h
      dsimp only at h
      by_cases hcond :
          (!(check_existing_knowledge_bases w).2.isEmpty &&
            (check_rag_anything_availability w).2) = true
      · rw [if_pos hcond] at h ⊢
        cases htst : test_pipeline_search w (str "raganything")
            (some ((check_existing_knowledge_bases w).2.headD [])) with
        | error e => rw [htst] at h; cases h
        | ok t =>
            rw [htst] at h
            have hcalls : calls = t.2.1 := (congrArg Prod.snd (Except.ok.inj h)).symm
            rw [hcalls, test_some_calls w (str "raganything")
              ((check_existing_knowledge_bases w).2.headD []) t htst, check_kb_snd]
      · rw [if_neg hcond] at h ⊢
        exact (congrArg Prod.snd (Except.ok.inj h)).symm

/-- C6: the live search is attempted exactly when the scan found a usable
knowledge base and `raganything` imported: the issued call list of a
completed run is the single fixed-query call against the first discovered
knowledge base with provider `raganything` when that condition holds, and
empty otherwise; and whenever a search test completes after its `rag_search`
call returned, the reported boolean is `true` exactly when the returned
answer text is non-empty. -/
theorem c6_search_gating (w : World) (lines : List Line) (calls : List SearchCall)
    (h : runMain w = .ok (lines, calls)) :
    calls = (if searchAttempted w then
               [theCall ((usableKBNames w).headD []) (str "raganything")]
             else []) ∧
    (∀ pid kb r t, w.ragSearch fixedQuery kb (str "naive") pid = .ok r →
       test_pipeline_search w pid (some kb) = .ok t →
       (t.2.2 = true ↔ 0 < (r.answer.getD []).length)) := by
  refine ⟨runMain_calls w lines calls h, ?_⟩
  intro pid kb r t hs ht
  cases h1 : w.ragToolImport with
  | error e => rw [test_import_err1 w pid (some kb) e h1] at ht; cases ht
  | ok u =>
      cases u
      cases h2 : w.factoryImport with
      | error e => rw [test_import_err2 w pid (some kb) e h1 h2] at ht; cases ht
      | ok u2 =>
          cases u2
          rw [test_some_eq_ok w pid kb r h1 h2 hs] at ht
          by_cases hn : 0 < (r.answer.getD []).length
          · rw [if_pos hn] at ht
            rw [← Except.ok.inj ht]
            simpa using hn
          · rw [if_neg hn] at ht
            rw [← Except.ok.inj ht]
            simpa using hn

/-- The output of a completed run, with a default for a raising run. -/
def runMainOutD (w : World) : List Line × List SearchCall :=
  (runMain w).toOption.getD ([], [])

/-- C6 witness: the healthy world issues exactly the one fixed call against
its first knowledge base. -/
theorem c6_search_gating_witness :
    (runMainOutD wBase).2 =
      (if searchAttempted wBase then
        [theCall ((usableKBNames wBase).headD []) (str "raganything")]
       else []) :=
  (c6_search_gating wBase (runMainOutD wBase).1 (runMainOutD wBase).2 rfl).1

/-- The header text of a line, when the line is a header. -/
def headOf : Line → Option Str
  | .header s => some s
  | _ => none

/-- The sequence of header texts of an output, in print order. -/
def headerTexts (ls : List Line) : List Str := ls.filterMap headOf

theorem headOf_header (t : Str) : headOf (Line.header t) = some t := rfl

theorem headOf_success (t : Str) : headOf (Line.success t) = none := rfl

theorem headOf_warning (t : Str) : headOf (Line.warning t) = none := rfl

theorem headOf_err (t : Str) : headOf (Line.error t) = none := rfl

theorem headOf_info (t : Str) : headOf (Line.info t) = none := rfl

theorem headOf_plain (t : Str) : headOf (Line.plain t) = none := rfl

theorem headOf_envVarLine (env : EnvMap) (var : Str) (dflt : Option Str) :
    headOf (envVarLine env var dflt) = none := by
  unfold envVarLine
  by_cases ht : truthy (getenv env var dflt) = true
  · by_cases hk : strHasSub var (str "KEY") = true
    · simp [ht, hk, headOf_success]
    · simp [ht, hk, headOf_success]
  · simp [ht, headOf_warning]

theorem headers_env (env : EnvMap) :
    headerTexts (check_environment env) = [str "环境变量检查"] := by
  simp [headerTexts, check_environment, env_vars, List.filterMap_cons, headOf_header,
    headOf_envVarLine]

theorem headers_emb (w : World) :
    headerTexts (check_embedding_service w).1 = [str "Embedding 服务检查"] := by
  cases h : w.embeddingOutcome with
  | ok c => simp [headerTexts, check_embedding_service, h, headOf]
  | error e => simp [headerTexts, check_embedding_service, h, headOf]

theorem headers_llm (w : World) :
    headerTexts (check_llm_service w).1 = [str "LLM 服务检查"] := by
  cases h : w.llmOutcome with
  | ok c =>
      by_cases hu : 50 < c.base_url.length
      · simp [headerTexts, check_llm_service, h, headOf, hu]
      · simp [headerTexts, check_llm_service, h, headOf, hu]
  | error e => simp [headerTexts, check_llm_service, h, headOf]

theorem headers_ra (w : World) :
    headerTexts (check_rag_anything_availability w).1 = [str "RAG-Anything 依赖检查"] := by
  cases h : w.ragAnythingImport with
  | ok u =>
      by_cases hp : w.ragAnythingPathExists = true
      · simp [headerTexts, check_rag_anything_availability, h, headOf, hp]
      · simp only [Bool.not_eq_true] at hp
        simp [headerTexts, check_rag_anything_availability, h, headOf, hp]
  | error e =>
      by_cases hp : w.ragAnythingPathExists = true
      · simp [headerTexts, check_rag_anything_availability, h, headOf, hp]
      · simp only [Bool.not_eq_true] at hp
        simp [headerTexts, check_rag_anything_availability, h, headOf, hp]

theorem headers_lr (w : World) :
    headerTexts (check_lightrag_availability w).1 = [str "LightRAG 依赖检查"] := by
  cases h : w.lightragImport with
  | ok u => simp [headerTexts, check_lightrag_availability, h, headOf]
  | error e => simp [headerTexts, check_lightrag_availability, h, headOf]

theorem headers_pipeLoop (w : World) (ps : List PipelineMeta) (acc : List (Str × Str)) :
    headerTexts (pipeLoop w ps acc).1 = [] := by
  induction ps generalizing acc with
  | nil => rfl
  | cons p rest ih =>
      cases hpl : w.getPipeline p.id with
      | ok pl =>
          by_cases hpa : pl.hasParserAttr = true
          · simp [headerTexts, pipeLoop, hpl, hpa, List.filterMap_append, headOf,
              List.filterMap_map, Function.comp] at ih ⊢
            exact ih _
          · simp only [Bool.not_eq_true] at hpa
            simp [headerTexts, pipeLoop, hpl, hpa, List.filterMap_append, headOf] at ih ⊢
            exact ih _
      | error e =>
          simp [headerTexts, pipeLoop, hpl, List.filterMap_append, headOf] at ih ⊢
          exact ih _

theorem headers_scanKBs (l : List KBDir) : headerTexts (scanKBs l).1 = [] := by
  induction l with
  | nil => rfl
  | cons d rest ih =>
      rw [headerTexts, scanKBs_cons_fst, List.filterMap_append]
      by_cases hd : d.isDir = true
      · by_cases he : (statusOf d).isEmpty = true
        · simp [hd, he, headOf, headerTexts] at ih ⊢
          exact ih
        · simp only [Bool.not_eq_true] at he
          simp [hd, he, headOf, headerTexts] at ih ⊢
          exact ih
      · simp only [Bool.not_eq_true] at hd
        simp [hd, headOf, headerTexts] at ih ⊢
        exact ih

theorem headers_kb (w : World) :
    headerTexts (check_existing_knowledge_bases w).1 = [str "已有知识库检查"] := by
  by_cases hex : w.kbBaseExists = true
  · by_cases hkb : (scanKBs w.kbEntries).2.isEmpty = true
    · simp [headerTexts, check_existing_knowledge_bases, hex, hkb, List.filterMap_cons,
        List.filterMap_append, headOf]
      have := headers_scanKBs w.kbEntries
      simpa [headerTexts] using this
    · simp only [Bool.not_eq_true] at hkb
      simp [headerTexts, check_existing_knowledge_bases, hex, hkb, List.filterMap_cons,
        List.filterMap_append, headOf]
      have := headers_scanKBs w.kbEntries
      simpa [headerTexts] using this
  · simp only [Bool.not_eq_true] at hex
    simp [headerTexts, check_existing_knowledge_bases, hex, headOf]

theorem headOf_summaryBool (key : Str) (b : Bool) :
    headOf (summaryBoolLine key b) = none := by
  cases b <;> rfl

theorem headers_summary (r : Results) :
    headerTexts (print_summary r) = [str "诊断总结"] := by
  simp [headerTexts, print_summary, List.filterMap_cons, headOf_header, headOf_warning,
    headOf_summaryBool]

theorem filterMap_headOf_if_success (c : Prop) [Decidable c] (t : Str) :
    List.filterMap headOf (if c then [Line.success t] else []) = [] := by
  split <;> simp [headOf_success]

theorem filterMap_headOf_if_success_plains (c : Prop) [Decidable c] (t : Str)
    (recs : List Str) :
    List.filterMap headOf
      (if c then [Line.success t]
       else recs.enum.map (fun p => Line.plain (natToStr (p.1 + 1) ++ str ". " ++ p.2))) = [] := by
  split
  · simp [headOf_success]
  · rw [List.filterMap_map, List.filterMap_eq_nil_iff]
    intro a _
    simp [Function.comp, headOf_plain]

theorem headers_recommendations (r : Results) :
    headerTexts (print_recommendations r) = [str "建议"] := by
  rw [headerTexts, print_recommendations]
  rw [List.filterMap_append, List.filterMap_cons_some (headOf_header _),
      filterMap_headOf_if_success, filterMap_headOf_if_success_plains]
  rfl

theorem headerTexts_append (a b : List Line) :
    headerTexts (a ++ b) = headerTexts a ++ headerTexts b := by
  simp [headerTexts, List.filterMap_append]

theorem headerTexts_cons_header (t : Str) (ls : List Line) :
    headerTexts (Line.header t :: ls) = t :: headerTexts ls := by
  simp [headerTexts, List.filterMap_cons, headOf_header]

theorem headers_banner (a b : Str) :
    headerTexts [Line.plain a, Line.plain b] = [] := by
  simp [headerTexts, headOf_plain]

theorem check_pipelines_err1 (w : World) (e : Str) (hf : w.factoryImport = .error e) :
    check_pipelines w = .error e := by
  simp only [check_pipelines, hf]
  rfl

theorem check_pipelines_err2 (w : World) (e : Str)
    (hf : w.factoryImport = .ok ()) (hl : w.listPipelines = .error e) :
    check_pipelines w = .error e := by
  simp only [check_pipelines, hf, hl]
  rfl

theorem headers_test (w : World) (pid kb : Str) (t : List Line × List SearchCall × Bool)
    (h : test_pipeline_search w pid (some kb) = .ok t) :
    headerTexts t.1 = [] := by
  cases h1 : w.ragToolImport with
  | error e => rw [test_import_err1 w pid (some kb) e h1] at h; cases h
  | ok u =>
      cases u
      cases h2 : w.factoryImport with
      | error e => rw [test_import_err2 w pid (some kb) e h1 h2] at h; cases h
      | ok u2 =>
          cases u2
          cases hs : w.ragSearch fixedQuery kb (str "naive") pid with
          | ok r =>
              rw [test_some_eq_ok w pid kb r h1 h2 hs] at h
              by_cases hn : 0 < (r.answer.getD []).length
              · rw [if_pos hn] at h
                rw [← Except.ok.inj h]
                simp [headerTexts, headOf_plain, headOf_success]
              · rw [if_neg hn] at h
                rw [← Except.ok.inj h]
                simp [headerTexts, headOf_plain, headOf_warning]
          | error e =>
              rw [test_some_eq_err w pid kb e h1 h2 hs] at h
              rw [← Except.ok.inj h]
              simp [headerTexts, headOf_plain, headOf_err]

/-- C8: for every completed run, the sequence of section headers printed —
one per check, in print order — is exactly: environment, embedding service,
LLM service, RAG-Anything availability, LightRAG availability, pipeline
check, knowledge-base scan, summary, recommendations, and finally the
search-test header exactly when the live search is attempted. -/
theorem c8_fixed_order (w : World) (lines : List Line) (calls : List SearchCall)
    (h : runMain w = .ok (lines, calls)) :
    headerTexts lines =
      [str "环境变量检查", str "Embedding 服务检查", str "LLM 服务检查",
       str "RAG-Anything 依赖检查", str "LightRAG 依赖检查",
       str "Pipeline 可用性检查", str "已有知识库检查", str "诊断总结", str "建议"] ++
      (if searchAttempted w then [str "搜索功能测试"] else []) := by
  rw [← cond_eq_searchAttempted w]
  unfold runMain at h
  cases hc : check_pipelines w with
  | error e => rw [hc] at h; cases h
  | ok pipes =>
      rw [hc] at h
      dsimp only at h
      have hp : headerTexts pipes.1 = [str "Pipeline 可用性检查"] := by
        cases hf : w.factoryImport with
        | error e => rw [check_pipelines_err1 w e hf] at hc; cases hc
        | ok u =>
            cases u
            cases hl : w.listPipelines with
            | error e => rw [check_pipelines_err2 w e hf hl] at hc; cases hc
            | ok ps =>
                rw [check_pipelines_eq w ps hf hl] at hc
                rw [← Except.ok.inj hc]
                have hpl := headers_pipeLoop w ps []
                rw [headerTexts] at hpl ⊢
                rw [List.filterMap_cons_some (headOf_header _),
                  List.filterMap_cons_none (headOf_info _), hpl]
      by_cases hcond :
          (!(check_existing_knowledge_bases w).2.isEmpty &&
            (check_rag_anything_availability w).2) = true
      · rw [if_pos hcond] at h ⊢
        cases htst : test_pipeline_search w (str "raganything")
            (some ((check_existing_knowledge_bases w).2.headD [])) with
        | error e => rw [htst] at h; cases h
        | ok t =>
            rw [htst] at h
            dsimp only at h
            have hpair := Except.ok.inj h
            rw [Prod.mk.injEq] at hpair
            rw [← hpair.1]
            simp only [headerTexts_append, headerTexts_cons_header, headers_banner,
              headers_env, headers_emb, headers_llm, headers_ra, headers_lr, hp,
              headers_kb, headers_summary, headers_recommendations,
              headers_test w (str "raganything")
                ((check_existing_knowledge_bases w).2.headD []) t htst]
            rfl
      · rw [if_neg hcond] at h ⊢
        have hpair := Except.ok.inj h
        rw [Prod.mk.injEq] at hpair
        rw [← hpair.1]
        simp only [headerTexts_append, headers_banner, headers_env, headers_emb,
          headers_llm, headers_ra, headers_lr, hp, headers_kb, headers_summary,
          headers_recommendations]
        rfl

/-- C8 witness: the healthy world (which attempts the search) prints the ten
headers in the fixed order. -/
theorem c8_fixed_order_witness :
    headerTexts (runMainOutD wBase).1 =
      [str "环境变量检查", str "Embedding 服务检查", str "LLM 服务检查",
       str "RAG-Anything 依赖检查", str "LightRAG 依赖检查",
       str "Pipeline 可用性检查", str "已有知识库检查", str "诊断总结", str "建议"] ++
      (if searchAttempted wBase then [str "搜索功能测试"] else []) :=
  c8_fixed_order wBase (runMainOutD wBase).1 (runMainOutD wBase).2 rfl
